import Mathlib

/-!
Verification of the EBL optical-depth interpolation core (`ebltable/tau_from_model.py`).

The Python class `OptDepth` stores three grids (`_z`, `_logEGeV`, `_tau`) and a cached
bivariate spline `__tauSpline` built by the external routine
`scipy.interpolate.RectBivariateSpline`.  The spline itself is external library code, so the
embedding treats the surface builder as an abstract parameter
`RB : ℕ → ℕ → List ℚ → List ℚ → List (List ℚ) → ℚ → ℚ → ℚ`
(`RB kx ky logEGeV z tau` is the fitted surface, evaluated pointwise) and likewise treats
`np.log10`, `np.power(10, ·)`, `np.log` and `np.exp` as abstract function parameters: the
repository code only pipes rational data through them, and every theorem states exactly the
properties of these external functions it needs as hypotheses.  All data is modelled over `ℚ`
(the float grids and arithmetic of the source, with exact arithmetic in place of rounding).
-/

/-- Comparator used to model `np.argsort` on a list `xs`: index `i` precedes index `j`
when the value at `i` is smaller, with index order breaking ties (a stable argsort;
any tie order yields the same sorted value list). -/
def argLE (xs : List ℚ) (i j : ℕ) : Prop :=
  xs.getD i 0 < xs.getD j 0 ∨ (xs.getD i 0 = xs.getD j 0 ∧ i ≤ j)

instance (xs : List ℚ) : DecidableRel (argLE xs) := fun i j => by
  unfold argLE
  exact inferInstance

instance (xs : List ℚ) : IsTotal ℕ (argLE xs) := by
  constructor
  intro i j
  rcases lt_trichotomy (xs.getD i 0) (xs.getD j 0) with h | h | h
  · exact Or.inl (Or.inl h)
  · rcases Nat.le_total i j with hij | hij
    · exact Or.inl (Or.inr ⟨h, hij⟩)
    · exact Or.inr (Or.inr ⟨h.symm, hij⟩)
  · exact Or.inr (Or.inl h)

instance (xs : List ℚ) : IsTrans ℕ (argLE xs) := by
  constructor
  intro i j k hij hjk
  rcases hij with h1 | ⟨h1, h1'⟩
  · rcases hjk with h2 | ⟨h2, _⟩
    · exact Or.inl (h1.trans h2)
    · exact Or.inl (h2 ▸ h1)
  · rcases hjk with h2 | ⟨h2, h2'⟩
    · exact Or.inl (h1 ▸ h2)
    · exact Or.inr ⟨h1.trans h2, h1'.trans h2'⟩

/-- Model of `np.argsort xs`: the permutation of `[0, …, len xs - 1]` that sorts `xs`. -/
def argsort (xs : List ℚ) : List ℕ :=
  (List.range xs.length).insertionSort (argLE xs)

/-- Model of `np.sort xs` (ascending value sort, returning a new array). -/
def sortQ (xs : List ℚ) : List ℚ :=
  xs.insertionSort (· ≤ ·)

/-- Mesh evaluation of a bivariate surface `S`, as performed by
`RectBivariateSpline.__call__(x, y)` with `grid=True`: the result has shape
`(len x, len y)` with entry `[i][j] = S x[i] y[j]`. -/
def splineMesh (S : ℚ → ℚ → ℚ) (xs ys : List ℚ) : List (List ℚ) :=
  xs.map fun x => ys.map fun y => S x y

/-- Matrix transpose (`np.ndarray.transpose`) of a matrix with `n` columns. -/
def transposeMat (m : List (List ℚ)) (n : ℕ) : List (List ℚ) :=
  (List.range n).map fun j => m.map fun row => row.getD j 0

/-- Scalar-or-array argument of `OptDepth.opt_depth`, mirroring the `np.isscalar` /
list / 1-D-array distinction made at the top of the method. -/
inductive NDInput where
  | scalar (x : ℚ)
  | arr (xs : List ℚ)
deriving DecidableEq

/-- Normalisation of the inputs performed by `opt_depth`: a scalar becomes the
one-element array `[x]`, a list/array is kept. -/
def NDInput.toList : NDInput → List ℚ
  | .scalar x => [x]
  | .arr xs => xs

/-- Whether the caller passed a scalar (`np.isscalar` true). -/
def NDInput.isScalar : NDInput → Bool
  | .scalar _ => true
  | .arr _ => false

/-- Result of `opt_depth` after `np.squeeze`: a 0-D scalar, a 1-D vector or a 2-D matrix. -/
inductive NDResult where
  | scalar (x : ℚ)
  | vec (v : List ℚ)
  | mat (m : List (List ℚ))
deriving DecidableEq

/-- Number of axes of an `NDResult` (`np.ndim`). -/
def NDResult.ndim : NDResult → ℕ
  | .scalar _ => 0
  | .vec _ => 1
  | .mat _ => 2

/-- The scalar held by a 0-D result (`float` conversion of a 0-D array). -/
def NDResult.toScalar : NDResult → ℚ
  | .scalar x => x
  | .vec v => v.getD 0 0
  | .mat m => (m.getD 0 []).getD 0 0

/-- Model of `np.squeeze` applied to the `(nz × ne)` result matrix of `opt_depth`:
every axis of length 1 is removed. -/
def squeeze (nz ne : ℕ) (m : List (List ℚ)) : NDResult :=
  if nz = 1 ∧ ne = 1 then .scalar ((m.getD 0 []).getD 0 0)
  else if nz = 1 then .vec (m.getD 0 [])
  else if ne = 1 then .vec (m.map fun r => r.getD 0 0)
  else .mat m

/-- Core matrix computation of `OptDepth.opt_depth` (lines 294-302 of the source), for a
surface `S` (the cached `__tauSpline`), already-normalised 1-D arrays `zs` and `Es`
(energies in TeV) and the external `np.log10`:

    result = np.zeros((Nz, NE)); tt = np.zeros((Nz, NE))
    args_z = np.argsort(z); args_E = np.argsort(ETeV)
    tt[args_z, :] = S(np.log10(np.sort(ETeV) * 1e3), np.sort(z)).transpose()
    result[:, args_E] = tt

The fancy-index assignments through the permutations `args_z`, `args_E` are rendered
functionally: row `k` of `tt` is the row of the sorted matrix whose position in `args_z`
is `k`, and likewise for columns of `result`. -/
def opt_depth_core (S : ℚ → ℚ → ℚ) (log10 : ℚ → ℚ) (zs Es : List ℚ) : List (List ℚ) :=
  let args_z := argsort zs
  let args_E := argsort Es
  let xE := (sortQ Es).map fun e => log10 (e * 1000)
  let M := transposeMat (splineMesh S xE (sortQ zs)) zs.length
  let tt := (List.range zs.length).map fun k => M.getD (args_z.indexOf k) []
  tt.map fun row => (List.range Es.length).map fun l => row.getD (args_E.indexOf l) 0

/-- Reordering of an array by a list of indices (numpy `xs[p]`). -/
def permute (p : List ℕ) (xs : List ℚ) : List ℚ :=
  p.map fun i => xs.getD i 0

/-- Un-permutation of an `opt_depth` result matrix along both axes: entry `[k][l]` is
taken from row `pz.indexOf k` and column `pE.indexOf l`, i.e. the inverse permutations
of the row and column shuffles are applied. -/
def unpermuteMat (pz pE : List ℕ) (m : List (List ℚ)) : List (List ℚ) :=
  (List.range pz.length).map fun k =>
    (List.range pE.length).map fun l =>
      (m.getD (pz.indexOf k) []).getD (pE.indexOf l) 0

/-- Error raised by the external surface-construction routine on inconsistent grid
shapes (the spec's `ShapeError`). -/
inductive SplineError where
  | shapeError
deriving DecidableEq

/-- Shape validation performed by the external `RectBivariateSpline` constructor:
the tau grid must have shape `(len logEGeV, len z)`.  The repository does not validate
independently; this error is propagated from the surface builder. -/
def shapeOk (logE z : List ℚ) (tau : List (List ℚ)) : Bool :=
  (tau.length = logE.length : Bool) && tau.all fun row => (row.length = z.length : Bool)

/-- The Model Store: the three grids and the cached interpolation surface
(fields `_z`, `_logEGeV`, `_tau`, `__tauSpline` of the Python class). -/
structure OptDepth where
  z : List ℚ
  logEGeV : List ℚ
  tau : List (List ℚ)
  tauSpline : ℚ → ℚ → ℚ

/-- `OptDepth.__init__(z, EGeV, tau, kx, ky)`: stores `z`, `log10(EGeV)` and `tau`, then
builds the surface via the external builder `RB`.  When the shapes are inconsistent the
builder raises (`ShapeError`) and no instance is produced. -/
def OptDepth.init (RB : ℕ → ℕ → List ℚ → List ℚ → List (List ℚ) → ℚ → ℚ → ℚ)
    (log10 : ℚ → ℚ) (z EGeV : List ℚ) (tau : List (List ℚ)) (kx ky : ℕ) :
    Except SplineError OptDepth :=
  let logE := EGeV.map log10
  if shapeOk logE z tau then
    .ok ⟨z, logE, tau, RB kx ky logE z tau⟩
  else
    .error .shapeError

/-- Outcome of a property setter.  `ok s` is a normal return leaving the instance in
state `s`; `shapeError s` means the surface rebuild raised, with `s` the state the
instance is left in (the grid field has already been assigned when the rebuild runs). -/
inductive SetResult where
  | ok (s : OptDepth)
  | shapeError (s : OptDepth)

/-- The state of the instance after the setter call, whether or not it raised. -/
def SetResult.state : SetResult → OptDepth
  | .ok s => s
  | .shapeError s => s

/-- Whether the setter returned normally. -/
def SetResult.isOk : SetResult → Bool
  | .ok _ => true
  | .shapeError _ => false

/-- The `z` property setter: `self._z = z` followed by a surface rebuild with the
default degrees `kx = ky = 2` (the `kx`/`ky` parameters of the Python setter are
unreachable through the property protocol, so the defaults always apply). -/
def OptDepth.set_z (RB : ℕ → ℕ → List ℚ → List ℚ → List (List ℚ) → ℚ → ℚ → ℚ)
    (s : OptDepth) (z : List ℚ) : SetResult :=
  let s1 : OptDepth := { s with z := z }
  if shapeOk s1.logEGeV s1.z s1.tau then
    .ok { s1 with tauSpline := RB 2 2 s1.logEGeV s1.z s1.tau }
  else
    .shapeError s1

/-- The `logEGeV` property setter: `self._logEGeV = np.log10(EGeV)` followed by a surface
rebuild with the default degrees. -/
def OptDepth.set_logEGeV (RB : ℕ → ℕ → List ℚ → List ℚ → List (List ℚ) → ℚ → ℚ → ℚ)
    (log10 : ℚ → ℚ) (s : OptDepth) (EGeV : List ℚ) : SetResult :=
  let s1 : OptDepth := { s with logEGeV := EGeV.map log10 }
  if shapeOk s1.logEGeV s1.z s1.tau then
    .ok { s1 with tauSpline := RB 2 2 s1.logEGeV s1.z s1.tau }
  else
    .shapeError s1

/-- The `tau` property setter: `self._tau = tau` followed by a surface rebuild with the
default degrees. -/
def OptDepth.set_tau (RB : ℕ → ℕ → List ℚ → List ℚ → List (List ℚ) → ℚ → ℚ → ℚ)
    (s : OptDepth) (tau : List (List ℚ)) : SetResult :=
  let s1 : OptDepth := { s with tau := tau }
  if shapeOk s1.logEGeV s1.z s1.tau then
    .ok { s1 with tauSpline := RB 2 2 s1.logEGeV s1.z s1.tau }
  else
    .shapeError s1

/-- `OptDepth.opt_depth(z, ETeV)`: normalises the two inputs to 1-D arrays, issues a
`RangeWarning` (`RuntimeWarning`) when any requested redshift lies below `self._z[0]`,
computes the result matrix via `opt_depth_core`, and squeezes length-1 axes.  The first
component of the pair is the warning flag, the second the returned value. -/
def OptDepth.opt_depth (s : OptDepth) (log10 : ℚ → ℚ) (z E : NDInput) : Bool × NDResult :=
  let zs := z.toList
  let Es := E.toList
  let warn := zs.any fun zi => decide (zi < s.z.getD 0 0)
  (warn, squeeze zs.length Es.length (opt_depth_core s.tauSpline log10 zs Es))

/-- Evaluation of one linear segment through `(x0, y0)` and `(x1, y1)` at `t`. -/
def interpLine (x0 y0 x1 y1 t : ℚ) : ℚ :=
  y0 + (t - x0) * (y1 - y0) / (x1 - x0)

/-- Model of the external `scipy.interpolate.UnivariateSpline(x, y, s=0, k=1,
ext='extrapolate')` used by `opt_depth_inverse`: with smoothing 0 and degree 1 this is the
piecewise-linear interpolant through the points `(x_i, y_i)` (for increasing `x`), with the
first and last segments extended linearly beyond the data range. -/
def linInterp : List ℚ → List ℚ → ℚ → ℚ
  | [_], y0 :: _, _ => y0
  | x0 :: x1 :: xtl, y0 :: y1 :: ytl, t =>
    if xtl = [] then interpLine x0 y0 x1 y1 t
    else if t ≤ x1 then interpLine x0 y0 x1 y1 t
    else linInterp (x1 :: xtl) (y1 :: ytl) t
  | _, _, _ => 0

/-- `OptDepth.opt_depth_inverse(z, tau)`: samples the cached surface at the stored
log-energy grid and the given redshift (`self.__tauSpline(self._logEGeV, z)[:, 0]`), fits
the degree-1 unsmoothed extrapolating spline mapping tau to log-energy, evaluates it at
the requested tau and returns `np.power(10., ·)` of the result — energy in GeV. -/
def OptDepth.opt_depth_inverse (s : OptDepth) (pow10 : ℚ → ℚ) (z tau : ℚ) : ℚ :=
  let curve := s.logEGeV.map fun x => s.tauSpline x z
  pow10 (linInterp curve s.logEGeV tau)

/-- Model of `np.linspace a b n` (with endpoint): `n` equally spaced points from `a`
to `b`. -/
def linspace (a b : ℚ) (n : ℕ) : List ℚ :=
  (List.range n).map fun k => a + (b - a) * k / (n - 1)

/-- The sequence of energy arguments passed to the Forward Evaluator by the loop of
`OptDepth.opt_depth_Ebin` (lines 355-361 of the source).  The loop body is

    logE_array.append(np.linspace(np.log(E), np.log(Ebin[i+1]), Esteps))
    t_array.append(self.opt_depth(z, np.exp(logE_array)))

so at iteration `i` the argument is `np.exp(logE_array)` — the exponential of the WHOLE
accumulated Python list of bin grids, a 2-D array of shape `(i+1, Esteps)` — and not just
the grid of bin `i`.  Entry `i` of this list is the matrix passed at iteration `i`. -/
def opt_depth_Ebin_calls (ln exp : ℚ → ℚ) (Ebin : List ℚ) (Esteps : ℕ) :
    List (List (List ℚ)) :=
  let grids := (List.range (Ebin.length - 1)).map fun i =>
    linspace (ln (Ebin.getD i 0)) (ln (Ebin.getD (i + 1) 0)) Esteps
  (List.range (Ebin.length - 1)).map fun i => (grids.take (i + 1)).map fun g => g.map exp

/-- Python method-call semantics of `opt_depth`: the instance goes in and comes out, as do
the two argument arrays.  The body assigns only to locals (`ETeV`, `z`, `result`, `tt`,
`args_z`, `args_E`); `np.sort` and `np.argsort` allocate new arrays instead of mutating
their argument, and no attribute of `self` is assigned, so the method leaves the instance
and the caller's arrays exactly as they were. -/
def OptDepth.opt_depth_method (s : OptDepth) (log10 : ℚ → ℚ) (z E : NDInput) :
    (Bool × NDResult) × OptDepth × NDInput × NDInput :=
  (s.opt_depth log10 z E, s, z, E)

/-- Python method-call semantics of `opt_depth_inverse`: the body builds a transient local
spline (`Enew`) and assigns no attribute of `self`, so the instance comes out unchanged. -/
def OptDepth.opt_depth_inverse_method (s : OptDepth) (pow10 : ℚ → ℚ) (z tau : ℚ) :
    ℚ × OptDepth :=
  (s.opt_depth_inverse pow10 z tau, s)

/-- Python method-call semantics of `opt_depth_Ebin`: the loop assigns only to the locals
`logE_array` and `t_array` and calls `opt_depth`, which performs no writes, so the
instance comes out unchanged.  The value component records the energy argument passed to
`opt_depth` at each iteration. -/
def OptDepth.opt_depth_Ebin_method (s : OptDepth) (ln exp : ℚ → ℚ) (z : ℚ)
    (Ebin : List ℚ) (Esteps : ℕ) : List (List (List ℚ)) × OptDepth :=
  (opt_depth_Ebin_calls ln exp Ebin Esteps, s)

/-! ### Concrete instances used in witnesses and counterexamples

`log10c`, `pow10c`, `lnc` and `expc` are concrete stand-ins for the external numeric
functions, correct on the handful of grid values the scenarios touch; `RBc` is a concrete
interpolating surface builder (exact table lookup at grid nodes, as any interpolating
spline must produce there).  The grids are the scenario of the spec: redshifts
`[0.1, 0.5, 1.0]`, energies `[10, 100, 1000]` GeV and the 3×3 tau table. -/

/-- Concrete `np.log10` on the grid energies (base-10 logarithms of 10, 100, 1000). -/
def log10c : ℚ → ℚ := fun x =>
  if x = 10 then 1 else if x = 100 then 2 else if x = 1000 then 3 else 0

/-- Concrete `np.power(10., ·)` on the grid log-energies. -/
def pow10c : ℚ → ℚ := fun x =>
  if x = 1 then 10 else if x = 2 then 100 else if x = 3 then 1000 else 0

/-- Concrete `np.log` on the bin edges used in the Bin Averager scenario. -/
def lnc : ℚ → ℚ := fun x =>
  if x = 1/10 then -1 else if x = 10 then 1 else 0

/-- Concrete `np.exp` stand-in (identity; only the array structure matters). -/
def expc : ℚ → ℚ := fun x => x

/-- Concrete interpolating surface builder: exact lookup of the tau table at grid nodes. -/
def RBc : ℕ → ℕ → List ℚ → List ℚ → List (List ℚ) → ℚ → ℚ → ℚ :=
  fun _ _ xs ys t x y => (t.getD (xs.indexOf x) []).getD (ys.indexOf y) 0

/-- Scenario redshift grid `[0.1, 0.5, 1.0]`. -/
def zGrid : List ℚ := [1/10, 1/2, 1]

/-- Scenario energy grid `[10, 100, 1000]` GeV. -/
def eGrid : List ℚ := [10, 100, 1000]

/-- Scenario tau table (3×3, rows indexed by energy, columns by redshift). -/
def tauGrid : List (List ℚ) := [[0, 0, 0], [1/10, 3/10, 1/2], [1, 2, 3]]

/-- The scenario Model Store (what `OptDepth.init` produces on the scenario grids). -/
def sC : OptDepth :=
  ⟨zGrid, eGrid.map log10c, tauGrid, RBc 2 2 (eGrid.map log10c) zGrid tauGrid⟩

/-- A length-5 energy grid for the shape-mismatch scenario. -/
def eGrid5 : List ℚ := [1, 10, 100, 1000, 10000]

/-- A well-shaped 5×3 tau table for the shape-mismatch scenario. -/
def tauGrid5 : List (List ℚ) := [[0, 0, 0], [1, 1, 1], [2, 2, 2], [3, 3, 3], [4, 4, 4]]

/-- A 4×3 tau table: wrong shape for a 5-point energy grid. -/
def tauBad : List (List ℚ) := [[0, 0, 0], [1, 1, 1], [2, 2, 2], [3, 3, 3]]

/-- Model Store over the length-5 energy grid. -/
def sC5 : OptDepth :=
  ⟨zGrid, eGrid5.map log10c, tauGrid5, RBc 2 2 (eGrid5.map log10c) zGrid tauGrid5⟩

/-! ### List index bookkeeping lemmas -/

theorem getD_range_map {α : Type} (f : ℕ → α) {n j : ℕ} (h : j < n) (d : α) :
    ((List.range n).map f).getD j d = f j := by
  rw [List.getD_eq_getElem _ _ (by simpa using h)]
  simp

theorem getD_map_of_lt {α β : Type} (f : α → β) (l : List α) {j : ℕ} (h : j < l.length)
    (d : β) (d' : α) : (l.map f).getD j d = f (l.getD j d') := by
  rw [List.getD_eq_getElem _ _ (by simpa using h), List.getElem_map,
    List.getD_eq_getElem _ _ h]

theorem range_map_getD {α : Type} (l : List α) (d : α) :
    (List.range l.length).map (fun k => l.getD k d) = l := by
  apply List.ext_getElem (by simp)
  intro i h1 h2
  simp only [List.getElem_map, List.getElem_range]
  exact List.getD_eq_getElem l d h2

theorem map_eq_range_map {α β : Type} (f : α → β) (l : List α) (d : α) :
    l.map f = (List.range l.length).map fun k => f (l.getD k d) := by
  conv_lhs => rw [← range_map_getD l d]
  rw [List.map_map]
  rfl

theorem perm_range_length {p : List ℕ} {n : ℕ} (hp : p.Perm (List.range n)) : p.length = n := by
  simpa using hp.length_eq

theorem perm_range_mem {p : List ℕ} {n k : ℕ} (hp : p.Perm (List.range n)) (hk : k < n) :
    k ∈ p :=
  hp.mem_iff.2 (List.mem_range.2 hk)

theorem perm_range_indexOf_lt {p : List ℕ} {n k : ℕ} (hp : p.Perm (List.range n))
    (hk : k < n) : p.indexOf k < p.length :=
  List.indexOf_lt_length.2 (perm_range_mem hp hk)

theorem perm_range_getD_indexOf {p : List ℕ} {n k : ℕ} (hp : p.Perm (List.range n))
    (hk : k < n) (d : ℕ) : p.getD (p.indexOf k) d = k := by
  rw [List.getD_eq_getElem _ _ (perm_range_indexOf_lt hp hk)]
  exact List.getElem_indexOf _

/-! ### Properties of the argsort model -/

theorem argsort_perm (xs : List ℚ) : (argsort xs).Perm (List.range xs.length) :=
  List.perm_insertionSort _ _

theorem argsort_length (xs : List ℚ) : (argsort xs).length = xs.length :=
  perm_range_length (argsort_perm xs)

theorem sortQ_length (xs : List ℚ) : (sortQ xs).length = xs.length :=
  List.length_insertionSort _ _

/-- The numpy identity `np.sort(xs) = xs[np.argsort(xs)]`: the value sort is the gather of
`xs` along its argsort. -/
theorem sortQ_eq_gather (xs : List ℚ) : sortQ xs = (argsort xs).map fun i => xs.getD i 0 := by
  have h1 : (sortQ xs).Perm xs := List.perm_insertionSort _ xs
  have h2 : ((argsort xs).map fun i => xs.getD i 0).Perm
      ((List.range xs.length).map fun i => xs.getD i 0) := (argsort_perm xs).map _
  have h3 : ((List.range xs.length).map fun i => xs.getD i 0) = xs := range_map_getD xs 0
  have hperm : (sortQ xs).Perm ((argsort xs).map fun i => xs.getD i 0) :=
    h1.trans (h3 ▸ h2).symm
  have hs1 : (sortQ xs).Sorted (· ≤ ·) := List.sorted_insertionSort _ xs
  have hps : (argsort xs).Pairwise (argLE xs) := List.sorted_insertionSort (argLE xs) _
  have hs2 : ((argsort xs).map fun i => xs.getD i 0).Sorted (· ≤ ·) := by
    rw [List.Sorted, List.pairwise_map]
    refine hps.imp ?_
    intro i j hij
    rcases hij with h | ⟨h, _⟩
    · exact le_of_lt h
    · exact le_of_eq h
  exact List.eq_of_perm_of_sorted hperm hs1 hs2

/-- Closed form of the sort/evaluate/scatter pipeline of `opt_depth`: entry `[k][l]` of the
result matrix is the surface evaluated at redshift `zs[k]` and energy `Es[l]`, for any
input order.  This is exactly the un-permutation performed by the two fancy-index
assignments of the source. -/
theorem opt_depth_core_closed (S : ℚ → ℚ → ℚ) (log10 : ℚ → ℚ) (zs Es : List ℚ) :
    opt_depth_core S log10 zs Es
      = zs.map fun zv => Es.map fun Ev => S (log10 (Ev * 1000)) zv := by
  apply List.ext_getElem
  · simp [opt_depth_core]
  intro k hk1 hk2
  rw [List.length_map] at hk2
  have hk : k < zs.length := hk2
  apply List.ext_getElem
  · simp [opt_depth_core]
  intro l hl1 hl2
  simp only [List.getElem_map] at hl2
  rw [List.length_map] at hl2
  have hl : l < Es.length := hl2
  have hik : (argsort zs).indexOf k < zs.length := by
    have h := perm_range_indexOf_lt (argsort_perm zs) hk
    rwa [argsort_length] at h
  have hil : (argsort Es).indexOf l < Es.length := by
    have h := perm_range_indexOf_lt (argsort_perm Es) hl
    rwa [argsort_length] at h
  have hxElen : ((sortQ Es).map fun e => log10 (e * 1000)).length = Es.length := by
    rw [List.length_map, sortQ_length]
  have hmeshlen : (splineMesh S ((sortQ Es).map fun e => log10 (e * 1000)) (sortQ zs)).length
      = Es.length := by
    unfold splineMesh
    rw [List.length_map, hxElen]
  unfold opt_depth_core
  simp only [List.getElem_map, List.getElem_range]
  unfold transposeMat
  rw [getD_range_map (h := hik)]
  rw [getD_map_of_lt _ _ (by rw [hmeshlen]; exact hil) _ []]
  unfold splineMesh
  rw [getD_map_of_lt _ _ (by rw [hxElen]; exact hil) _ 0]
  rw [getD_map_of_lt _ _ (by rw [sortQ_length]; exact hik) _ 0]
  rw [getD_map_of_lt _ _ (by rw [sortQ_length]; exact hil) _ 0]
  rw [sortQ_eq_gather Es, sortQ_eq_gather zs]
  rw [getD_map_of_lt _ _ (by rw [argsort_length]; exact hil) _ 0]
  rw [getD_map_of_lt _ _ (by rw [argsort_length]; exact hik) _ 0]
  rw [perm_range_getD_indexOf (argsort_perm Es) hl, perm_range_getD_indexOf (argsort_perm zs) hk]
  rw [List.getD_eq_getElem _ _ hl, List.getD_eq_getElem _ _ hk]

/-! ### Evaluation helpers -/

/-- Spot check of the argsort model on a concrete list. -/
theorem argsort_spot_check : argsort [(3 : ℚ), 1, 2] = [1, 2, 0] := by decide

/-- Spot check of the sort model on a concrete list. -/
theorem sortQ_spot_check : sortQ [(3 : ℚ), 1, 2] = [1, 2, 3] := by decide

unseal Rat.add Rat.mul Rat.inv Rat.sub in
/-- Spot check of the full sort/evaluate/scatter pipeline on unsorted inputs. -/
theorem opt_depth_core_spot_check :
    opt_depth_core (fun x y => x + 10 * y) (fun x => x) [(2 : ℚ), 1] [3, 1, 2]
      = [[3020, 1020, 2020], [3010, 1010, 2010]] := by decide

/-- The value returned by `opt_depth`, written through the closed form of the core. -/
theorem opt_depth_val (s : OptDepth) (log10 : ℚ → ℚ) (z E : NDInput) :
    (s.opt_depth log10 z E).2
      = squeeze z.toList.length E.toList.length
          (z.toList.map fun zv => E.toList.map fun Ev => s.tauSpline (log10 (Ev * 1000)) zv) := by
  unfold OptDepth.opt_depth
  simp only [opt_depth_core_closed]

/-- The warning flag returned by `opt_depth` is the model of
`np.any(z < self._z[0])` on the normalised input. -/
theorem opt_depth_warn (s : OptDepth) (log10 : ℚ → ℚ) (z E : NDInput) :
    (s.opt_depth log10 z E).1
      = z.toList.any fun zi => decide (zi < s.z.getD 0 0) := rfl

/-- On two scalars, `opt_depth` returns the surface evaluated at the grid-converted
energy (TeV to GeV to log10) and the requested redshift, as a 0-D scalar. -/
theorem opt_depth_scalar_scalar (s : OptDepth) (log10 : ℚ → ℚ) (z0 E0 : ℚ) :
    (s.opt_depth log10 (NDInput.scalar z0) (NDInput.scalar E0)).2
      = NDResult.scalar (s.tauSpline (log10 (E0 * 1000)) z0) := by
  rw [opt_depth_val]
  simp [NDInput.toList, squeeze]

/-- The left node of a linear segment is interpolated exactly. -/
theorem interpLine_left (x0 y0 x1 y1 : ℚ) : interpLine x0 y0 x1 y1 x0 = y0 := by
  unfold interpLine
  rw [sub_self, zero_mul, zero_div, add_zero]

/-- The right node of a linear segment is interpolated exactly. -/
theorem interpLine_right (x0 y0 x1 y1 : ℚ) (h : x0 ≠ x1) :
    interpLine x0 y0 x1 y1 x1 = y1 := by
  unfold interpLine
  rw [mul_comm, mul_div_assoc, div_self (sub_ne_zero.mpr (Ne.symm h)), mul_one,
    add_sub_cancel]

/-- The piecewise-linear interpolant passes exactly through each of its nodes, provided
the node abscissae are strictly increasing. -/
theorem linInterp_node : ∀ xs ys : List ℚ, xs.Pairwise (· < ·) → ys.length = xs.length →
    ∀ i, i < xs.length → linInterp xs ys (xs.getD i 0) = ys.getD i 0 := by
  intro xs
  induction xs with
  | nil =>
    intro ys _ _ i hi
    simp at hi
  | cons x0 rest ih =>
    intro ys hpw hlen i hi
    cases rest with
    | nil =>
      have hi0 : i = 0 := by
        simp at hi
        omega
      subst hi0
      cases ys with
      | nil => simp at hlen
      | cons y0 ytl => rfl
    | cons x1 xtl =>
      cases ys with
      | nil => simp at hlen
      | cons y0 ytl0 =>
        cases ytl0 with
        | nil =>
          simp at hlen
        | cons y1 ytl =>
          have hx01 : x0 < x1 := List.rel_of_pairwise_cons hpw (List.mem_cons_self x1 xtl)
          rcases i with _ | j
          · show linInterp (x0 :: x1 :: xtl) (y0 :: y1 :: ytl) x0 = y0
            simp only [linInterp]
            by_cases hx : xtl = []
            · rw [if_pos hx]
              exact interpLine_left x0 y0 x1 y1
            · rw [if_neg hx, if_pos (le_of_lt hx01)]
              exact interpLine_left x0 y0 x1 y1
          · cases xtl with
            | nil =>
              have hj : j = 0 := by
                simp at hi
                omega
              subst hj
              show linInterp [x0, x1] (y0 :: y1 :: ytl) x1 = y1
              simp only [linInterp]
              rw [if_pos trivial]
              exact interpLine_right x0 y0 x1 y1 (ne_of_lt hx01)
            | cons x2 xtl2 =>
              rcases j with _ | j'
              · show linInterp (x0 :: x1 :: x2 :: xtl2) (y0 :: y1 :: ytl) x1 = y1
                simp only [linInterp]
                rw [if_neg (List.cons_ne_nil x2 xtl2), if_pos (le_refl x1)]
                exact interpLine_right x0 y0 x1 y1 (ne_of_lt hx01)
              · have hj'lt : j' < (x2 :: xtl2).length := by
                  simp at hi
                  simpa using hi
                have hmem : (x2 :: xtl2).getD j' 0 ∈ x2 :: xtl2 := by
                  rw [List.getD_eq_getElem _ _ hj'lt]
                  exact List.getElem_mem hj'lt
                have hx1t : x1 < (x2 :: xtl2).getD j' 0 :=
                  List.rel_of_pairwise_cons hpw.of_cons hmem
                show linInterp (x0 :: x1 :: x2 :: xtl2) (y0 :: y1 :: ytl)
                    ((x2 :: xtl2).getD j' 0) = (y0 :: y1 :: ytl).getD (j' + 2) 0
                simp only [linInterp]
                rw [if_neg (List.cons_ne_nil x2 xtl2), if_neg (not_le.mpr hx1t)]
                have hlen' : (y1 :: ytl).length = (x1 :: x2 :: xtl2).length := by
                  simp at hlen
                  simpa using hlen
                have h := ih (y1 :: ytl) hpw.of_cons hlen' (j' + 1)
                  (by simpa using hj'lt)
                exact h

/-- Generic inverse-of-forward round trip at a stored grid energy: feeding the forward
value of the grid energy `EGeV[i]` (given to `opt_depth` in TeV, i.e. divided by 1000)
into `opt_depth_inverse` recovers `EGeV[i]` — the energy in GeV — whenever the sampled
tau curve at that redshift is strictly increasing and `pow10` inverts `log10` at that
grid energy. -/
theorem inverse_of_forward_at_grid (s : OptDepth) (log10 pow10 : ℚ → ℚ) (EGeV : List ℚ)
    (hsE : s.logEGeV = EGeV.map log10) (z0 : ℚ) (i : ℕ) (hi : i < EGeV.length)
    (hmono : (s.logEGeV.map fun x => s.tauSpline x z0).Pairwise (· < ·))
    (hpow : pow10 (log10 (EGeV.getD i 0)) = EGeV.getD i 0) :
    s.opt_depth_inverse pow10 z0
        (NDResult.toScalar
          (s.opt_depth log10 (NDInput.scalar z0)
            (NDInput.scalar (EGeV.getD i 0 / 1000))).2)
      = EGeV.getD i 0 := by
  rw [opt_depth_scalar_scalar]
  show s.opt_depth_inverse pow10 z0
      (s.tauSpline (log10 (EGeV.getD i 0 / 1000 * 1000)) z0) = _
  have h1000 : EGeV.getD i 0 / 1000 * 1000 = EGeV.getD i 0 :=
    div_mul_cancel₀ _ (by norm_num)
  rw [h1000]
  unfold OptDepth.opt_depth_inverse
  have hilen : i < s.logEGeV.length := by
    rw [hsE, List.length_map]
    exact hi
  have hlogE : s.logEGeV.getD i 0 = log10 (EGeV.getD i 0) := by
    conv_lhs => rw [hsE]
    exact getD_map_of_lt log10 EGeV hi 0 0
  have hcurve : s.tauSpline (log10 (EGeV.getD i 0)) z0
      = ((s.logEGeV.map fun x => s.tauSpline x z0).getD i 0) := by
    rw [getD_map_of_lt _ _ hilen _ 0, hlogE]
  rw [hcurve]
  show pow10 (linInterp (s.logEGeV.map fun x => s.tauSpline x z0) s.logEGeV
      ((s.logEGeV.map fun x => s.tauSpline x z0).getD i 0)) = EGeV.getD i 0
  rw [linInterp_node _ _ hmono (by rw [List.length_map]) i
    (by rw [List.length_map]; exact hilen)]
  rw [hlogE, hpow]

/-- Characterisation of the `RangeWarning` flag of `opt_depth`: for a nonempty,
ascending stored redshift grid, the warning fires exactly when some requested redshift
lies strictly below every stored grid redshift (equivalently, below the grid minimum),
and the returned value is computed regardless of the flag. -/
theorem opt_depth_warn_characterisation (s : OptDepth) (log10 : ℚ → ℚ) (z E : NDInput)
    (hne : s.z ≠ []) (hsort : s.z.Sorted (· ≤ ·)) :
    ((s.opt_depth log10 z E).1 = true ↔ ∃ zi ∈ z.toList, ∀ w ∈ s.z, zi < w) := by
  obtain ⟨z0, ztl, hz⟩ : ∃ z0 ztl, s.z = z0 :: ztl := by
    cases hzc : s.z with
    | nil => exact absurd hzc hne
    | cons a l => exact ⟨a, l, rfl⟩
  rw [opt_depth_warn, List.any_eq_true]
  constructor
  · rintro ⟨zi, hmem, hlt⟩
    rw [decide_eq_true_eq] at hlt
    refine ⟨zi, hmem, ?_⟩
    intro w hw
    rw [hz] at hlt hw
    rcases List.mem_cons.mp hw with rfl | hw'
    · exact hlt
    · have h0w : z0 ≤ w := by
        rw [hz] at hsort
        exact (List.sorted_cons.mp hsort).1 w hw'
      exact lt_of_lt_of_le hlt h0w
  · rintro ⟨zi, hmem, hall⟩
    refine ⟨zi, hmem, ?_⟩
    rw [decide_eq_true_eq, hz]
    exact hall z0 (hz ▸ List.mem_cons_self z0 ztl)

/-- Extraction of the stored fields from a successful construction: the Model Store
holds the redshift grid, the log10 of the energy grid, the tau grid, and the surface
built by the external builder from exactly those grids and degrees. -/
theorem init_ok_fields {RB : ℕ → ℕ → List ℚ → List ℚ → List (List ℚ) → ℚ → ℚ → ℚ}
    {log10 : ℚ → ℚ} {zg Eg : List ℚ} {tg : List (List ℚ)} {kx ky : ℕ} {s : OptDepth}
    (hinit : OptDepth.init RB log10 zg Eg tg kx ky = .ok s) :
    s = ⟨zg, Eg.map log10, tg, RB kx ky (Eg.map log10) zg tg⟩ := by
  unfold OptDepth.init at hinit
  by_cases hsh : shapeOk (Eg.map log10) zg tg = true
  · rw [if_pos hsh] at hinit
    injection hinit with h
    exact h.symm
  · rw [if_neg hsh] at hinit
    exact absurd hinit (by simp)

/-! ### Claim theorems -/

/-- Claim C1: for a Model Store built from an ascending redshift grid, an energy grid and
a matching tau grid with spline degrees `kx = ky ≥ 1` — degrees under which the external
unsmoothed surface interpolates its samples, stated as hypothesis `hinterp` — evaluating
`opt_depth` at the stored grid point (`z = zg[j]`, `E = Eg[i]/1000` TeV, i.e. `Eg[i]` GeV)
returns exactly `tau[i][j]` (exact over ℚ; "within floating-point tolerance" in the
float implementation). -/
theorem opt_depth_at_grid_point
    (RB : ℕ → ℕ → List ℚ → List ℚ → List (List ℚ) → ℚ → ℚ → ℚ) (log10 : ℚ → ℚ)
    (zg Eg : List ℚ) (tg : List (List ℚ)) (kx ky : ℕ) (s : OptDepth) (i j : ℕ)
    (hk : 1 ≤ kx) (hky : ky = kx) (hsort : zg.Sorted (· ≤ ·))
    (hinit : OptDepth.init RB log10 zg Eg tg kx ky = .ok s)
    (hi : i < Eg.length) (hj : j < zg.length)
    (hinterp : ∀ i', i' < Eg.length → ∀ j', j' < zg.length →
      RB kx ky (Eg.map log10) zg tg (log10 (Eg.getD i' 0)) (zg.getD j' 0)
        = (tg.getD i' []).getD j' 0) :
    (s.opt_depth log10 (NDInput.scalar (zg.getD j 0))
        (NDInput.scalar (Eg.getD i 0 / 1000))).2
      = NDResult.scalar ((tg.getD i []).getD j 0) := by
  have hs := init_ok_fields hinit
  subst hs
  rw [opt_depth_scalar_scalar]
  have h1000 : Eg.getD i 0 / 1000 * 1000 = Eg.getD i 0 :=
    div_mul_cancel₀ _ (by norm_num)
  rw [h1000]
  exact congrArg NDResult.scalar (hinterp i hi j hj)

unseal Rat.add Rat.mul Rat.inv Rat.sub in
/-- Witness for C1, the spec scenario: grids `[0.1, 0.5, 1.0]`, `[10, 100, 1000]` GeV and
the 3×3 tau table; `opt_depth(z = 0.5, E = 0.1 TeV)` returns `tau[1][1] = 0.3`. -/
theorem opt_depth_at_grid_point_witness :
    (sC.opt_depth log10c (NDInput.scalar (zGrid.getD 1 0))
        (NDInput.scalar (eGrid.getD 1 0 / 1000))).2
      = NDResult.scalar ((tauGrid.getD 1 []).getD 1 0) :=
  opt_depth_at_grid_point RBc log10c zGrid eGrid tauGrid 2 2 sC 1 1
    (by decide) rfl (by decide) rfl (by decide) (by decide)
    (by
      intro i' hi' j' hj'
      have hi3 : i' < 3 := hi'
      have hj3 : j' < 3 := hj'
      interval_cases i' <;> interval_cases j' <;> decide)

/-- Claim C3: `opt_depth` is invariant under permutation of its input arrays — applying
it to arbitrarily shuffled `z` and `E` arrays and un-shuffling the result matrix along
both axes recovers the result for the original order.  Internally both arrays are sorted
before the surface call and scattered back through the inverse permutations of their
argsorts (`opt_depth_core`), which is why the matrix below is the one `opt_depth`
squeezes and returns. -/
theorem opt_depth_perm_invariant (S : ℚ → ℚ → ℚ) (log10 : ℚ → ℚ) (zs Es : List ℚ)
    (pz pE : List ℕ) (hpz : pz.Perm (List.range zs.length))
    (hpE : pE.Perm (List.range Es.length)) :
    unpermuteMat pz pE (opt_depth_core S log10 (permute pz zs) (permute pE Es))
      = opt_depth_core S log10 zs Es := by
  have hkl : pz.length = zs.length := perm_range_length hpz
  have hll : pE.length = Es.length := perm_range_length hpE
  have hplen : (permute pz zs).length = pz.length := by
    unfold permute
    rw [List.length_map]
  have hqlen : (permute pE Es).length = pE.length := by
    unfold permute
    rw [List.length_map]
  rw [opt_depth_core_closed, opt_depth_core_closed]
  unfold unpermuteMat
  rw [hkl, hll]
  rw [map_eq_range_map (fun zv => Es.map fun Ev => S (log10 (Ev * 1000)) zv) zs 0]
  apply List.map_congr_left
  intro k hk
  rw [List.mem_range] at hk
  rw [map_eq_range_map (fun Ev => S (log10 (Ev * 1000)) (zs.getD k 0)) Es 0]
  apply List.map_congr_left
  intro l hl
  rw [List.mem_range] at hl
  have hkself := perm_range_indexOf_lt hpz hk
  have hlself := perm_range_indexOf_lt hpE hl
  have h1 : (permute pz zs).getD (pz.indexOf k) 0 = zs.getD k 0 := by
    unfold permute
    rw [getD_map_of_lt _ _ hkself _ 0, perm_range_getD_indexOf hpz hk]
  have h2 : (permute pE Es).getD (pE.indexOf l) 0 = Es.getD l 0 := by
    unfold permute
    rw [getD_map_of_lt _ _ hlself _ 0, perm_range_getD_indexOf hpE hl]
  rw [getD_map_of_lt _ _ (by rw [hplen]; exact hkself) _ 0]
  rw [getD_map_of_lt _ _ (by rw [hqlen]; exact hlself) _ 0]
  rw [h1, h2]

unseal Rat.add Rat.mul Rat.inv Rat.sub in
/-- Witness for C3: a reversed redshift pair and a 3-cycled energy triple, un-shuffled,
give the original result matrix. -/
theorem opt_depth_perm_invariant_witness :
    unpermuteMat [1, 0] [2, 0, 1]
        (opt_depth_core (fun x y => x + 10 * y) (fun x => x)
          (permute [1, 0] [1/2, 1/10]) (permute [2, 0, 1] [3, 1, 2]))
      = opt_depth_core (fun x y => x + 10 * y) (fun x => x) [1/2, 1/10] [3, 1, 2] :=
  opt_depth_perm_invariant (fun x y => x + 10 * y) (fun x => x) [1/2, 1/10] [3, 1, 2]
    [1, 0] [2, 0, 1] (by decide) (by decide)

/-- Claim C4 (amended): a tau grid whose shape differs from
`(len energy grid, len redshift grid)` makes construction raise `ShapeError` with no
instance produced; replacing a grid post-construction with inconsistently shaped data
also raises `ShapeError` and the surface is not rebuilt, but the offending grid field has
already been overwritten when the rebuild raises, so the instance is left in a
partially-updated state (new grid, stale surface) rather than untouched. -/
theorem shape_mismatch_raises
    (RB : ℕ → ℕ → List ℚ → List ℚ → List (List ℚ) → ℚ → ℚ → ℚ) (log10 : ℚ → ℚ)
    (zg Eg : List ℚ) (tg : List (List ℚ)) (kx ky : ℕ) (s : OptDepth)
    (z' Eg' : List ℚ) (tg' : List (List ℚ)) :
    (shapeOk (Eg.map log10) zg tg = false →
      OptDepth.init RB log10 zg Eg tg kx ky = .error .shapeError)
    ∧ (shapeOk s.logEGeV z' s.tau = false →
      OptDepth.set_z RB s z' = .shapeError { s with z := z' })
    ∧ (shapeOk (Eg'.map log10) s.z s.tau = false →
      OptDepth.set_logEGeV RB log10 s Eg'
        = .shapeError { s with logEGeV := Eg'.map log10 })
    ∧ (shapeOk s.logEGeV s.z tg' = false →
      OptDepth.set_tau RB s tg' = .shapeError { s with tau := tg' }) := by
  refine ⟨fun h => ?_, fun h => ?_, fun h => ?_, fun h => ?_⟩
  · unfold OptDepth.init
    rw [if_neg (by simp [h])]
  · unfold OptDepth.set_z
    rw [if_neg (by simp [h])]
  · unfold OptDepth.set_logEGeV
    rw [if_neg (by simp [h])]
  · unfold OptDepth.set_tau
    rw [if_neg (by simp [h])]

/-- Witness for C4 (amended), at the spec's example shapes: energy grid of length 5,
redshift grid of length 3, tau grid of shape 4×3 — construction raises, and tau
replacement raises leaving the already-overwritten tau field observable. -/
theorem shape_mismatch_raises_witness :
    OptDepth.init RBc log10c zGrid eGrid5 tauBad 2 2 = .error .shapeError
    ∧ OptDepth.set_tau RBc sC5 tauBad = .shapeError { sC5 with tau := tauBad } :=
  ⟨(shape_mismatch_raises RBc log10c zGrid eGrid5 tauBad 2 2 sC5 zGrid eGrid5
      tauBad).1 (by decide),
   (shape_mismatch_raises RBc log10c zGrid eGrid5 tauBad 2 2 sC5 zGrid eGrid5
      tauBad).2.2.2 (by decide)⟩

/-- Counterexample to C4 as stated: replacing the tau grid of a valid Model Store with
the 4×3 table raises `ShapeError` (no rebuild), but the instance is NOT left without
partial results — its stored tau grid has already been replaced by the mis-shaped data,
while the cached surface is still the old one. -/
theorem set_tau_partial_state_cex :
    SetResult.isOk (OptDepth.set_tau RBc sC5 tauBad) = false
    ∧ (SetResult.state (OptDepth.set_tau RBc sC5 tauBad)).tau = tauBad
    ∧ sC5.tau ≠ tauBad := by
  refine ⟨rfl, rfl, by decide⟩

/-- Claim C5: for a Model Store with a nonempty ascending redshift grid, `opt_depth`
raises a `RangeWarning` if and only if some requested redshift is strictly below the
minimum of the stored grid (every stored value exceeds it); the warning is non-fatal:
the returned value is the squeezed surface-evaluation matrix, computed regardless of the
flag, and is a (finite) rational for every input. -/
theorem range_warning_iff (s : OptDepth) (log10 : ℚ → ℚ) (z E : NDInput)
    (hne : s.z ≠ []) (hsort : s.z.Sorted (· ≤ ·)) :
    ((s.opt_depth log10 z E).1 = true ↔ ∃ zi ∈ z.toList, ∀ w ∈ s.z, zi < w)
    ∧ (s.opt_depth log10 z E).2
        = squeeze z.toList.length E.toList.length
            (z.toList.map fun zv =>
              E.toList.map fun Ev => s.tauSpline (log10 (Ev * 1000)) zv) :=
  ⟨opt_depth_warn_characterisation s log10 z E hne hsort, opt_depth_val s log10 z E⟩

unseal Rat.add Rat.mul Rat.inv Rat.sub in
/-- Witness for C5 on the scenario store: requesting z = 0.05, below the grid minimum
0.1, fires the warning and the value is still returned. -/
theorem range_warning_iff_witness :
    ((sC.opt_depth log10c (NDInput.scalar (1/20)) (NDInput.scalar (1/10))).1 = true
        ↔ ∃ zi ∈ (NDInput.scalar (1/20)).toList, ∀ w ∈ sC.z, zi < w)
    ∧ (sC.opt_depth log10c (NDInput.scalar (1/20)) (NDInput.scalar (1/10))).2
        = squeeze (NDInput.scalar (1/20)).toList.length
            (NDInput.scalar (1/10)).toList.length
            ((NDInput.scalar (1/20)).toList.map fun zv =>
              (NDInput.scalar (1/10)).toList.map fun Ev =>
                sC.tauSpline (log10c (Ev * 1000)) zv) :=
  range_warning_iff sC log10c (NDInput.scalar (1/20)) (NDInput.scalar (1/10))
    (by decide) (by decide)

/-- Claim C6 (amended): `opt_depth` squeezes an axis of the result matrix exactly when
that axis has length 1.  Scalar inputs always produce a length-1 axis (so the corresponding
axis is squeezed, as the claim says), but a length-1 ARRAY input is squeezed too, so array
inputs keep their axes only when they have two or more entries. -/
theorem opt_depth_squeeze_ndim (s : OptDepth) (log10 : ℚ → ℚ) (z E : NDInput) (x : ℚ) :
    ((s.opt_depth log10 z E).2).ndim
        = (if z.toList.length = 1 then 0 else 1)
          + (if E.toList.length = 1 then 0 else 1)
    ∧ (NDInput.scalar x).toList.length = 1 := by
  refine ⟨?_, rfl⟩
  rw [opt_depth_val]
  unfold squeeze
  by_cases h1 : z.toList.length = 1 <;> by_cases h2 : E.toList.length = 1 <;>
    simp [h1, h2, NDResult.ndim]

unseal Rat.add Rat.mul Rat.inv Rat.sub in
/-- Counterexample to C6 as stated: the length-1 array inputs `z = [0.5]`, `E = [0.1]`
are not scalars, yet both axes of the result are squeezed away — the result is the 0-D
scalar 0.3, where the claim as stated requires both axes kept. -/
theorem length_one_array_squeezed_cex :
    (sC.opt_depth log10c (NDInput.arr [1/2]) (NDInput.arr [1/10])).2
        = NDResult.scalar (3/10)
    ∧ NDInput.isScalar (NDInput.arr [1/2]) = false
    ∧ NDInput.isScalar (NDInput.arr [1/10]) = false
    ∧ NDResult.ndim (NDResult.scalar (3/10)) = 0 := by
  exact ⟨by decide, rfl, rfl, rfl⟩

/-- Claim C7 (amended): the inverse evaluation of the forward evaluation recovers the
energy in GeV, i.e. 1000 times the TeV energy given to `opt_depth` — exactly so at any
stored grid energy, for every redshift at which the sampled tau-vs-log-energy curve is
strictly increasing (the spec's monotonicity precondition) and with `pow10` inverting
`log10` at that grid energy.  `opt_depth_inverse` builds the degree-1 unsmoothed
extrapolating spline mapping tau to log-energy from the surface sampled at the stored
energy grid and returns `10^(result)` in GeV, so the round trip multiplies a TeV input
by 1000. -/
theorem opt_depth_inverse_roundtrip_GeV
    (RB : ℕ → ℕ → List ℚ → List ℚ → List (List ℚ) → ℚ → ℚ → ℚ)
    (log10 pow10 : ℚ → ℚ) (zg Eg : List ℚ) (tg : List (List ℚ)) (kx ky : ℕ)
    (s : OptDepth) (z0 : ℚ) (i : ℕ)
    (hinit : OptDepth.init RB log10 zg Eg tg kx ky = .ok s)
    (hi : i < Eg.length)
    (hmono : (s.logEGeV.map fun x => s.tauSpline x z0).Pairwise (· < ·))
    (hpow : pow10 (log10 (Eg.getD i 0)) = Eg.getD i 0) :
    s.opt_depth_inverse pow10 z0
        (NDResult.toScalar
          (s.opt_depth log10 (NDInput.scalar z0)
            (NDInput.scalar (Eg.getD i 0 / 1000))).2)
      = 1000 * (Eg.getD i 0 / 1000) := by
  have hsE : s.logEGeV = Eg.map log10 := by
    rw [init_ok_fields hinit]
  rw [inverse_of_forward_at_grid s log10 pow10 Eg hsE z0 i hi hmono hpow]
  rw [mul_comm, div_mul_cancel₀ _ (by norm_num : (1000 : ℚ) ≠ 0)]

unseal Rat.add Rat.mul Rat.inv Rat.sub in
/-- Witness for C7 (amended) on the scenario store: z = 0.5 and the middle grid energy
0.1 TeV; the round trip returns 1000 × 0.1 = 100 (GeV). -/
theorem opt_depth_inverse_roundtrip_GeV_witness :
    sC.opt_depth_inverse pow10c (1/2)
        (NDResult.toScalar
          (sC.opt_depth log10c (NDInput.scalar (1/2))
            (NDInput.scalar (eGrid.getD 1 0 / 1000))).2)
      = 1000 * (eGrid.getD 1 0 / 1000) :=
  opt_depth_inverse_roundtrip_GeV RBc log10c pow10c zGrid eGrid tauGrid 2 2 sC
    (1/2) 1 rfl (by decide) (by decide) (by decide)

unseal Rat.add Rat.mul Rat.inv Rat.sub in
/-- Counterexample to C7 as stated: at z = 0.5 and E = 0.1 TeV (the interior grid energy
100 GeV) the forward evaluation gives tau = 0.3 — exactly, the surface interpolating the
samples — and the inverse evaluation of 0.3 returns 100, the energy in GeV: a factor
1000 away from E = 0.1, not ≈ E within any tolerance attributable to spline degree or
grid resolution. -/
theorem inverse_roundtrip_units_cex :
    (sC.opt_depth log10c (NDInput.scalar (1/2)) (NDInput.scalar (1/10))).2
        = NDResult.scalar (3/10)
    ∧ sC.opt_depth_inverse pow10c (1/2) (3/10) = 100
    ∧ (100 : ℚ) = 1000 * (1/10)
    ∧ (100 : ℚ) ≠ 1/10 := by
  exact ⟨by decide, by decide, by norm_num, by norm_num⟩

/-- Claim C8: replacing any one of the three grids through its setter (with data of
consistent shape, so the external builder succeeds) immediately and synchronously
rebuilds the surface from the current three stored grids with the default spline degrees
2, 2 — the returned state holds the new grid, the two untouched grids, and a surface
built from exactly those three, so no stale or partial state is observable. -/
theorem setters_rebuild_surface
    (RB : ℕ → ℕ → List ℚ → List ℚ → List (List ℚ) → ℚ → ℚ → ℚ) (log10 : ℚ → ℚ)
    (s : OptDepth) (z' Eg' : List ℚ) (tg' : List (List ℚ))
    (hz : shapeOk s.logEGeV z' s.tau = true)
    (hE : shapeOk (Eg'.map log10) s.z s.tau = true)
    (ht : shapeOk s.logEGeV s.z tg' = true) :
    OptDepth.set_z RB s z' = .ok ⟨z', s.logEGeV, s.tau, RB 2 2 s.logEGeV z' s.tau⟩
    ∧ OptDepth.set_logEGeV RB log10 s Eg'
        = .ok ⟨s.z, Eg'.map log10, s.tau, RB 2 2 (Eg'.map log10) s.z s.tau⟩
    ∧ OptDepth.set_tau RB s tg'
        = .ok ⟨s.z, s.logEGeV, tg', RB 2 2 s.logEGeV s.z tg'⟩ := by
  refine ⟨?_, ?_, ?_⟩
  · unfold OptDepth.set_z
    rw [if_pos (by simpa using hz)]
  · unfold OptDepth.set_logEGeV
    rw [if_pos (by simpa using hE)]
  · unfold OptDepth.set_tau
    rw [if_pos (by simpa using ht)]

unseal Rat.add Rat.mul Rat.inv Rat.sub in
/-- Witness for C8 on the scenario store: replacing the redshift grid, the (linear GeV)
energy grid, and the tau grid each rebuild the surface from the current grids with
degrees 2, 2. -/
theorem setters_rebuild_surface_witness :
    OptDepth.set_z RBc sC [1/5, 1/2, 2]
        = .ok ⟨[1/5, 1/2, 2], sC.logEGeV, sC.tau,
            RBc 2 2 sC.logEGeV [1/5, 1/2, 2] sC.tau⟩
    ∧ OptDepth.set_logEGeV RBc log10c sC [5, 50, 500]
        = .ok ⟨sC.z, [5, 50, 500].map log10c, sC.tau,
            RBc 2 2 ([5, 50, 500].map log10c) sC.z sC.tau⟩
    ∧ OptDepth.set_tau RBc sC [[0, 0, 0], [1, 1, 1], [2, 2, 2]]
        = .ok ⟨sC.z, sC.logEGeV, [[0, 0, 0], [1, 1, 1], [2, 2, 2]],
            RBc 2 2 sC.logEGeV sC.z [[0, 0, 0], [1, 1, 1], [2, 2, 2]]⟩ :=
  setters_rebuild_surface RBc log10c sC [1/5, 1/2, 2] [5, 50, 500]
    [[0, 0, 0], [1, 1, 1], [2, 2, 2]] (by decide) (by decide) (by decide)

/-- Claim C9: every evaluation operation is a pure read.  The three evaluation methods,
modelled with explicit Python method-call semantics (instance in, instance out, plus the
caller's argument arrays for `opt_depth`), return the Model Store — redshift grid,
log-energy grid, tau grid and cached surface — and the caller's inputs exactly as they
were: their bodies assign only to locals and `np.sort`/`np.argsort` copy rather than
mutate. -/
theorem evaluators_pure (s : OptDepth) (log10 pow10 lnF expF : ℚ → ℚ) (z E : NDInput)
    (z0 t0 zb : ℚ) (Ebin : List ℚ) (Esteps : ℕ) :
    (s.opt_depth_method log10 z E).2 = (s, z, E)
    ∧ (s.opt_depth_inverse_method pow10 z0 t0).2 = s
    ∧ (s.opt_depth_Ebin_method lnF expF zb Ebin Esteps).2 = s :=
  ⟨rfl, rfl, rfl⟩

/-- Claim C10: the energy-grid accessor and mutator are asymmetric.  Assigning `E`
through the `logEGeV` setter stores `log10(E)` (whether or not the rebuild succeeds), so
reading the property immediately afterwards returns `log10(E)`; whenever `log10`
actually changes the array (`E.map log10 ≠ E`, true for every positive array under the
real base-10 logarithm except fixed points), set-then-get is not the identity. -/
theorem logEGeV_set_get_asymmetry
    (RB : ℕ → ℕ → List ℚ → List ℚ → List (List ℚ) → ℚ → ℚ → ℚ) (log10 : ℚ → ℚ)
    (s : OptDepth) (Eg' : List ℚ) (hne : Eg'.map log10 ≠ Eg') :
    (SetResult.state (OptDepth.set_logEGeV RB log10 s Eg')).logEGeV = Eg'.map log10
    ∧ (SetResult.state (OptDepth.set_logEGeV RB log10 s Eg')).logEGeV ≠ Eg' := by
  have hstate :
      (SetResult.state (OptDepth.set_logEGeV RB log10 s Eg')).logEGeV = Eg'.map log10 := by
    simp only [OptDepth.set_logEGeV]
    split
    · rfl
    · rfl
  refine ⟨hstate, ?_⟩
  rw [hstate]
  exact hne

unseal Rat.add Rat.mul Rat.inv Rat.sub in
/-- Witness for C10: assigning the linear grid `[10, 100, 1000]` stores `[1, 2, 3]`, so
reading back gives the logarithms, not the assigned array. -/
theorem logEGeV_set_get_asymmetry_witness :
    (SetResult.state (OptDepth.set_logEGeV RBc log10c sC eGrid)).logEGeV
        = eGrid.map log10c
    ∧ (SetResult.state (OptDepth.set_logEGeV RBc log10c sC eGrid)).logEGeV ≠ eGrid :=
  logEGeV_set_get_asymmetry RBc log10c sC eGrid (by decide)

unseal Rat.add Rat.mul Rat.inv Rat.sub in
/-- Claim C2, evaluation of the code at the failing input: with bin edges
`[0.1, 1, 10]` TeV and `Esteps = 3`, the energy argument the loop passes to the Forward
Evaluator at bin 1 is the exponential of the WHOLE accumulated list — the 2×3 array
holding the grids of bins 0 and 1 — and not the 1-D three-point grid of bin 1 alone
(`[[0, 1/2, 1]]` here, with `exp` the identity stand-in): the second bin's call carries
two rows, the first of which is bin 0's grid. -/
theorem opt_depth_Ebin_accumulates_cex :
    (opt_depth_Ebin_calls lnc expc [1/10, 1, 10] 3).getD 1 []
        = [[-1, -1/2, 0], [0, 1/2, 1]]
    ∧ ((opt_depth_Ebin_calls lnc expc [1/10, 1, 10] 3).getD 1 []).length = 2
    ∧ (opt_depth_Ebin_calls lnc expc [1/10, 1, 10] 3).getD 1 [] ≠ [[0, 1/2, 1]] := by
  exact ⟨by decide, by decide, by decide⟩
